import Mathlib

/-
Verification of the expression evaluator in
`nemoguardrails/colang/v2_x/runtime/eval.py` (Colang v2 runtime).

The Python module is shallowly embedded below: Python runtime values become
the inductive type `Value` (with Python subtyping of `bool <: int` and
`AttributeDict <: dict` reflected in `pyIsinstance`), exceptions become the
`Except PyErr` monad, and the regex-based text rewriting of
`eval_expression` becomes explicit character-list scanners that reproduce
the behaviour of the three patterns used by the source
(the string-literal pattern, the interpolation-site pattern and the
variable pattern).  The final sandboxed evaluation, performed in the source
by the external `simpleeval.EvalWithCompoundTypes` library, is modelled
from the spec (section 4.3) by a small tokenizer, parser and evaluator over
a closed function table.
-/

namespace NGEval

/-- Characters that are awkward to write literally are named once. -/
def lbraceC : Char := Char.ofNat 123

/-- Closing curly brace character. -/
def rbraceC : Char := Char.ofNat 125

/-- Double-quote character. -/
def dquoteC : Char := Char.ofNat 34

/-- Single-quote character. -/
def squoteC : Char := Char.ofNat 39

/-- Backslash character. -/
def bslashC : Char := Char.ofNat 92

/-- Dollar-sign character, the variable sigil. -/
def dollarC : Char := Char.ofNat 36

/-- Errors raised by the embedded code.  `colangValue` models the source's
`ColangValueError`; the others model the Python exceptions that the final
`except Exception` clauses can observe. -/
inductive PyErr where
  | colangValue (msg : String)
  | assertionError
  | syntaxError
  | nameNotDefined (name : String)
  | functionNotDefined (name : String)
  | zeroDivision
  | typeError
  | fuelExhausted
deriving DecidableEq, Repr

/-- The five comparison operators.  The source stores each operator as a
closure `lambda val: val OP v_ref`; the closures are defunctionalized into
this tag, applied by `applyCompOp`. -/
inductive CompOp where
  | lt
  | le
  | gt
  | ge
  | ne
deriving DecidableEq, Repr

/-- Python runtime values reachable in the evaluator.  `comp` is a
`ComparisonExpression` instance (operator tag plus stored reference value).
`dict` carries a flag telling whether it has been wrapped into an
`AttributeDict` (a dict subclass, modelled from the spec since
`nemoguardrails/colang/v2_x/runtime/utils.py` is not part of the sources).
`hostObj` stands for host objects (compiled regex patterns, uids, flow/action
bridge results) whose structure the spec leaves to the host runtime. -/
inductive Value where
  | none
  | bool (b : Bool)
  | int (n : Int)
  | float (q : Rat)
  | str (s : String)
  | dict (entries : List (String × Value)) (isAttr : Bool)
  | comp (op : CompOp) (ref : Value)
  | hostObj (tag : String)

/-- Python concrete types (`type(v)`) of the values above. -/
inductive PyType where
  | noneT
  | boolT
  | intT
  | floatT
  | strT
  | dictT
  | attrDictT
  | compT
  | hostObjT
deriving DecidableEq, Repr

/-- The concrete type of a value, Python's `type(v)`. -/
def pytype : Value → PyType
  | .none => .noneT
  | .bool _ => .boolT
  | .int _ => .intT
  | .float _ => .floatT
  | .str _ => .strT
  | .dict _ isAttr => if isAttr then .attrDictT else .dictT
  | .comp _ _ => .compT
  | .hostObj _ => .hostObjT

/-- Python's `isinstance(v, t)`: `bool` is a subclass of `int` and
`AttributeDict` is a subclass of `dict`, so those checks are "is-a", not
concrete-type equality. -/
def pyIsinstance (v : Value) : PyType → Bool
  | .intT => match v with
    | .int _ => true
    | .bool _ => true
    | _ => false
  | .dictT => match v with
    | .dict _ _ => true
    | _ => false
  | t => pytype v = t

/-- Python's `isinstance(v, (int, float))`, the check used by
`ComparisonExpression.__init__`.  Booleans pass it, being `int` instances. -/
def pyIsIntOrFloat (v : Value) : Bool :=
  pyIsinstance v .intT || pyIsinstance v .floatT

/-- Numeric view of a Python value: `True` counts as `1` and `False` as `0`,
as in Python numeric comparisons.  Floats are carried as rationals; no claim
exercises float rounding. -/
def toRat : Value → Option Rat
  | .int n => some ((n : Int) : Rat)
  | .bool b => some (if b then 1 else 0)
  | .float q => some q
  | _ => Option.none

/-- Rendering of `type(v)` as Python prints it inside an f-string. -/
def pyTypeName : Value → String
  | .none => "<class \x27NoneType\x27>"
  | .bool _ => "<class \x27bool\x27>"
  | .int _ => "<class \x27int\x27>"
  | .float _ => "<class \x27float\x27>"
  | .str _ => "<class \x27str\x27>"
  | .dict _ isAttr =>
    if isAttr then "<class \x27nemoguardrails.colang.v2_x.runtime.utils.AttributeDict\x27>"
    else "<class \x27dict\x27>"
  | .comp _ _ => "<class \x27nemoguardrails.colang.v2_x.runtime.eval.ComparisonExpression\x27>"
  | .hostObj _ => "<class \x27object\x27>"

/-- Message of the `ColangValueError` raised by
`ComparisonExpression.__init__` on a non-numeric reference value. -/
def compInitErrMsg (v : Value) : String :=
  "Comparison operators don\x27t support values of type \x27" ++ pyTypeName v ++ "\x27"

/-- Message of the `ColangValueError` raised by
`ComparisonExpression.compare` on a type mismatch. -/
def compareErrMsg : String :=
  "Comparing variables of different types is not supported!"

/-- Application of a defunctionalized comparison closure
`lambda val: val OP v_ref` on the numeric views of its arguments.  The
source only ever calls the closure after the `isinstance` check of
`compare`, so both arguments are numeric there. -/
def applyCompOp (op : CompOp) (val ref : Rat) : Bool :=
  match op with
  | .lt => decide (val < ref)
  | .le => decide (val ≤ ref)
  | .gt => decide (ref < val)
  | .ge => decide (ref ≤ val)
  | .ne => decide (val ≠ ref)

/-- `ComparisonExpression.__init__`: rejects reference values failing
`isinstance(value, (int, float))`, otherwise stores the operator and the
value. -/
def comparisonExpressionInit (op : CompOp) (value : Value) : Except PyErr Value :=
  if pyIsIntOrFloat value then .ok (.comp op value)
  else .error (.colangValue (compInitErrMsg value))

/-- `ComparisonExpression.compare`: raises unless
`isinstance(value, type(self.value))`, then returns the stored operator
applied to the given value. -/
def Value.compare (c : Value) (value : Value) : Except PyErr Bool :=
  match c with
  | .comp op ref =>
    if pyIsinstance value (pytype ref) then
      .ok (applyCompOp op ((toRat value).getD 0) ((toRat ref).getD 0))
    else .error (.colangValue compareErrMsg)
  | _ => .error .typeError

/-- `_less_than_operator`. -/
def less_than_operator (v_ref : Value) : Except PyErr Value :=
  comparisonExpressionInit .lt v_ref

/-- `_equal_or_less_than_operator`. -/
def equal_or_less_than_operator (v_ref : Value) : Except PyErr Value :=
  comparisonExpressionInit .le v_ref

/-- `_greater_than_operator`. -/
def greater_than_operator (v_ref : Value) : Except PyErr Value :=
  comparisonExpressionInit .gt v_ref

/-- `_equal_or_greater_than_operator`. -/
def equal_or_greater_than_operator (v_ref : Value) : Except PyErr Value :=
  comparisonExpressionInit .ge v_ref

/-- `_not_equal_to_operator`. -/
def not_equal_to_operator (v_ref : Value) : Except PyErr Value :=
  comparisonExpressionInit .ne v_ref

/-- `_is_int`: Python's `isinstance(val, int)`, true for booleans too. -/
def is_int (val : Value) : Bool := pyIsinstance val .intT

/-- `_is_float`. -/
def is_float (val : Value) : Bool := pyIsinstance val .floatT

/-- `_is_bool`. -/
def is_bool (val : Value) : Bool := pyIsinstance val .boolT

/-- `_is_str`. -/
def is_str (val : Value) : Bool := pyIsinstance val .strT

/-- Scanner for one string-literal span, the lazy regex
`("(?:\\"|[^"])*?")` (resp. its single-quote twin) of `eval_expression`
started at a position whose character is the opening quote `q`.  Given the
characters after the opening quote it returns the span's content and the
characters after the closing quote.  The single backtracking point of the
lazy regex — a backslash directly followed by `q`, preferred as an escape
pair but re-read as a lone backslash when no later closing quote exists —
is reproduced by the `Option.none` fallback of the pair branch. -/
def scanStr (q : Char) : List Char → Option (List Char × List Char)
  | [] => Option.none
  | [c] => if c = q then some ([], []) else Option.none
  | c :: c2 :: rest =>
    if c = q then some ([], c2 :: rest)
    else if c = bslashC ∧ c2 = q then
      match scanStr q rest with
      | some (content, r) => some (c :: c2 :: content, r)
      | Option.none => some ([c], rest)
    else
      match scanStr q (c2 :: rest) with
      | some (content, r) => some (c :: content, r)
      | Option.none => Option.none

/-- Characters allowed inside an interpolation site, the `[^{}]` class. -/
def siteChar (c : Char) : Bool := !(c == lbraceC) && !(c == rbraceC)

/-- One attempt of the interpolation-site regex
`{(?!\{)([^{}]+)\}(?!\})` at the start of `l`: an opening brace not
followed by another one, a nonempty run of non-brace characters, a closing
brace not followed by another one.  Returns the captured run and the
characters after the closing brace (the lookahead consumes nothing). -/
def tryReadSite (l : List Char) : Option (List Char × List Char) :=
  match l with
  | c0 :: c1 :: rest =>
    if c0 = lbraceC ∧ c1 ≠ lbraceC then
      let content := (c1 :: rest).takeWhile siteChar
      match (c1 :: rest).dropWhile siteChar with
      | r :: r2 =>
        if r = rbraceC ∧ content ≠ [] then
          match r2 with
          | r3 :: _ => if r3 = rbraceC then Option.none else some (content, r2)
          | [] => some (content, r2)
        else Option.none
      | [] => Option.none
    else Option.none
  | _ => Option.none

/-- `re.findall` of the site pattern over a literal span: left-to-right
scan, restarting one character further on failure.  Fuel-driven; the
wrappers pass `length + 1`, which at least one consumed character per step
makes sufficient. -/
def findSitesGo : Nat → List Char → List (List Char)
  | 0, _ => []
  | _+1, [] => []
  | f+1, c :: rest =>
    match tryReadSite (c :: rest) with
    | some (content, r2) => content :: findSitesGo f r2
    | Option.none => findSitesGo f rest

/-- All interpolation sites of a literal span, in order. -/
def findSites (l : List Char) : List (List Char) := findSitesGo (l.length + 1) l

/-- `re.sub` of the site pattern: the same scan as `findSitesGo`, replacing
the i-th match by the i-th replacement value, inserted literally. -/
def substSitesGo : Nat → List (List Char) → List Char → List Char
  | 0, _, l => l
  | _+1, _, [] => []
  | f+1, vals, c :: rest =>
    match tryReadSite (c :: rest) with
    | some (_, r2) =>
      match vals with
      | v :: vs => v ++ substSitesGo f vs r2
      | [] => substSitesGo f [] r2
    | Option.none => c :: substSitesGo f vals rest

/-- Substitution of site values into a literal span. -/
def substSites (vals : List (List Char)) (l : List Char) : List Char :=
  substSitesGo (l.length + 1) vals l

/-- Python's `str.replace` for a two-character pattern: non-overlapping,
left to right. -/
def replacePair (a b : Char) (repl : List Char) : List Char → List Char
  | [] => []
  | [c] => [c]
  | c :: c2 :: rest =>
    if c = a ∧ c2 = b then repl ++ replacePair a b repl rest
    else c :: replacePair a b repl (c2 :: rest)

/-- Python's `str.replace` for a one-character pattern. -/
def replaceChar (c : Char) (repl : List Char) (l : List Char) : List Char :=
  (l.map (fun x => if x = c then repl else [x])).flatten

/-- The doubled-brace collapse
`.replace("{{", "{").replace("}}", "}")` applied after substitution. -/
def collapseBraces (l : List Char) : List Char :=
  replacePair rbraceC rbraceC [rbraceC] (replacePair lbraceC lbraceC [lbraceC] l)

/-- The quote escaping
`str(value).replace(...)` applied to each resolved site value. -/
def escapeQuotes (l : List Char) : List Char :=
  replaceChar squoteC [bslashC, squoteC] (replaceChar dquoteC [bslashC, dquoteC] l)

/-- Python's `str(value)` for the values the evaluator produces.  The float
and container renderings are simplified placeholders (no claim stringifies
them); integers, booleans, `None` and strings match Python. -/
def pyStr : Value → String
  | .none => "None"
  | .bool b => if b then "True" else "False"
  | .int n => toString n
  | .float q => toString q
  | .str s => s
  | .dict _ _ => "<dict>"
  | .comp _ _ => "<ComparisonExpression>"
  | .hostObj tag => tag

/-- Message of the `ColangValueError` wrapping a failed inner
interpolation. -/
def innerErrMsg (inner : List Char) : String :=
  "Error evaluating inner expression: \x27" ++ String.mk inner ++ "\x27"

/-- Processing of one matched string-literal span (quotes included):
find the interpolation sites; if there are none the span passes through
unchanged (in particular without brace collapsing); otherwise each site is
recursively evaluated — a failure being re-raised as a `ColangValueError`
naming the inner text — stringified, quote-escaped and substituted, and
the doubled braces of the span are then collapsed. -/
def processOneLiteral (evalInner : List Char → Except PyErr Value) (span : List Char) :
    Except PyErr (List Char) :=
  let sites := findSites span
  if sites.isEmpty then .ok span
  else do
    let vals ← sites.mapM (fun inner =>
      match evalInner inner with
      | .error _ => .error (.colangValue (innerErrMsg inner))
      | .ok v => .ok (escapeQuotes (pyStr v).data))
    .ok (collapseBraces (substSites vals span))

/-- The string-interpolation preprocessor: scan for string-literal spans
(double- or single-quoted, per `scanStr`), process each with
`processOneLiteral` and splice the processed spans back in place, leaving
all other characters unchanged. -/
def processStringsGo (evalInner : List Char → Except PyErr Value) :
    Nat → List Char → Except PyErr (List Char)
  | 0, l => .ok l
  | _+1, [] => .ok []
  | f+1, c :: rest =>
    if c = dquoteC ∨ c = squoteC then
      match scanStr c rest with
      | some (content, after) => do
        let processed ← processOneLiteral evalInner (c :: content ++ [c])
        let tailRes ← processStringsGo evalInner f after
        .ok (processed ++ tailRes)
      | Option.none => do
        let tailRes ← processStringsGo evalInner f rest
        .ok (c :: tailRes)
    else do
      let tailRes ← processStringsGo evalInner f rest
      .ok (c :: tailRes)

/-- Preprocessing entry point with sufficient fuel. -/
def processStrings (evalInner : List Char → Except PyErr Value) (l : List Char) :
    Except PyErr (List Char) :=
  processStringsGo evalInner (l.length + 1) l

/-- Start of a Python identifier, `[a-zA-Z_]`. -/
def isIdentStart (c : Char) : Bool := c.isAlpha || c = '_'

/-- Continuation of a Python identifier, `[a-zA-Z0-9_]`. -/
def isIdentChar (c : Char) : Bool := c.isAlphanum || c = '_'

/-- `re.findall` of the variable pattern `\$([a-zA-Z_][a-zA-Z0-9_]*)`:
the identifiers after each sigil, in order, duplicates kept. -/
def findVarsGo : Nat → List Char → List String
  | 0, _ => []
  | _+1, [] => []
  | f+1, c :: rest =>
    if c = dollarC then
      match rest with
      | c1 :: rest1 =>
        if isIdentStart c1 then
          String.mk (c1 :: rest1.takeWhile isIdentChar) ::
            findVarsGo f (rest1.dropWhile isIdentChar)
        else findVarsGo f rest
      | [] => []
    else findVarsGo f rest

/-- Variable references of an expression, in order, duplicates kept. -/
def findVars (l : List Char) : List String := findVarsGo (l.length + 1) l

/-- `re.sub` of the variable pattern with replacement `var_\1`. -/
def substVarsGo : Nat → List Char → List Char
  | 0, l => l
  | _+1, [] => []
  | f+1, c :: rest =>
    if c = dollarC then
      match rest with
      | c1 :: rest1 =>
        if isIdentStart c1 then
          ("var_".data ++ (c1 :: rest1.takeWhile isIdentChar)) ++
            substVarsGo f (rest1.dropWhile isIdentChar)
        else c :: substVarsGo f rest
      | [] => [c]
    else c :: substVarsGo f rest

/-- Sigil rewriting entry point. -/
def substVars (l : List Char) : List Char := substVarsGo (l.length + 1) l

/-- Caller-supplied contexts and evaluator binding sets, as ordered
association lists (Python dicts preserve insertion order). -/
abbrev Context := List (String × Value)

/-- Binding set handed to the sandboxed evaluator. -/
abbrev Env := List (String × Value)

/-- `context.get(var_name, None)`. -/
def ctxGet (ctx : Context) (name : String) : Value :=
  (ctx.lookup name).getD Value.none

/-- The `AttributeDict(val)` wrap applied to dict-valued variables,
modelled from the spec: mapping values are wrapped so that their keys
become attribute-accessible; other values pass through. -/
def wrapAttr : Value → Value
  | .dict es _ => .dict es true
  | v => v

/-- The binding-set construction loop of `eval_expression`: walk the
variable occurrences in order, skip an identifier whose `var_`-prefixed
key is already bound, otherwise look it up in the context (absent names
yielding `None`), wrap dicts, and append the binding. -/
def buildLocalsGo (ctx : Context) : List String → Env → Env
  | [], acc => acc
  | n :: rest, acc =>
    if acc.any (fun p => p.1 == "var_" ++ n) then buildLocalsGo ctx rest acc
    else buildLocalsGo ctx rest (acc ++ [("var_" ++ n, wrapAttr (ctxGet ctx n))])

/-- The binding set built for a list of variable occurrences. -/
def buildLocals (names : List String) (ctx : Context) : Env :=
  buildLocalsGo ctx names []

/-- Tokens of the sandboxed evaluator.  Modelled from the spec: the source
delegates final evaluation to the external `simpleeval` library, whose
grammar the spec describes as literals, arithmetic, names and calls of
whitelisted functions; this token set covers that subset. -/
inductive Tok where
  | intTok (n : Nat)
  | strTok (s : List Char)
  | identTok (s : String)
  | plusTok
  | minusTok
  | starTok
  | slashTok
  | lparenTok
  | rparenTok
  | commaTok
deriving DecidableEq, Repr

/-- Python string-literal lexing inside the evaluator: an escaped quote or
backslash is decoded, any other escape keeps its backslash (as Python
does), and a missing closing quote is a syntax error (`Option.none`). -/
def lexString (q : Char) : List Char → Option (List Char × List Char)
  | [] => Option.none
  | [c] => if c = q then some ([], []) else Option.none
  | c :: c2 :: rest =>
    if c = q then some ([], c2 :: rest)
    else if c = bslashC then
      let decoded :=
        if c2 = dquoteC ∨ c2 = squoteC ∨ c2 = bslashC then [c2] else [c, c2]
      match lexString q rest with
      | some (cs, r) => some (decoded ++ cs, r)
      | Option.none => Option.none
    else
      match lexString q (c2 :: rest) with
      | some (cs, r) => some (c :: cs, r)
      | Option.none => Option.none

/-- Decimal value of a digit run. -/
def digitsToNat (l : List Char) : Nat :=
  l.foldl (fun n c => n * 10 + (c.toNat - 48)) 0

/-- Tokenizer of the sandboxed evaluator (modelled from the spec, see
`Tok`).  Any character outside the supported subset — in particular a
curly brace or a sigil — is a syntax error. -/
def tokenizeGo : Nat → List Char → Except PyErr (List Tok)
  | 0, _ => .error .fuelExhausted
  | _+1, [] => .ok []
  | f+1, c :: rest =>
    if c = ' ' then tokenizeGo f rest
    else if c.isDigit then
      (fun ts => .intTok (digitsToNat (c :: rest.takeWhile Char.isDigit)) :: ts) <$>
        tokenizeGo f (rest.dropWhile Char.isDigit)
    else if isIdentStart c then
      (fun ts => .identTok (String.mk (c :: rest.takeWhile isIdentChar)) :: ts) <$>
        tokenizeGo f (rest.dropWhile isIdentChar)
    else if c = dquoteC ∨ c = squoteC then
      match lexString c rest with
      | some (content, rest2) => (fun ts => .strTok content :: ts) <$> tokenizeGo f rest2
      | Option.none => .error .syntaxError
    else if c = '+' then (fun ts => .plusTok :: ts) <$> tokenizeGo f rest
    else if c = '-' then (fun ts => .minusTok :: ts) <$> tokenizeGo f rest
    else if c = '*' then (fun ts => .starTok :: ts) <$> tokenizeGo f rest
    else if c = '/' then (fun ts => .slashTok :: ts) <$> tokenizeGo f rest
    else if c = '(' then (fun ts => .lparenTok :: ts) <$> tokenizeGo f rest
    else if c = ')' then (fun ts => .rparenTok :: ts) <$> tokenizeGo f rest
    else if c = ',' then (fun ts => .commaTok :: ts) <$> tokenizeGo f rest
    else .error .syntaxError

/-- Tokenization with sufficient fuel. -/
def tokenize (l : List Char) : Except PyErr (List Tok) :=
  tokenizeGo (l.length + 1) l

/-- Abstract syntax of the sandboxed evaluator (modelled from the spec):
literals, names, the four arithmetic operators and calls. -/
inductive Ast where
  | intLit (n : Int)
  | strLit (s : List Char)
  | name (s : String)
  | addOp (a b : Ast)
  | subOp (a b : Ast)
  | mulOp (a b : Ast)
  | divOp (a b : Ast)
  | call (f : String) (args : List Ast)

mutual

/-- Additive level of the expression grammar. -/
def parseAdd : Nat → List Tok → Except PyErr (Ast × List Tok)
  | 0, _ => .error .fuelExhausted
  | f+1, toks => do
    let (a, r) ← parseMul f toks
    parseAddRest f a r

/-- Loop absorbing `+`/`-` at the additive level. -/
def parseAddRest : Nat → Ast → List Tok → Except PyErr (Ast × List Tok)
  | 0, _, _ => .error .fuelExhausted
  | f+1, a, toks =>
    match toks with
    | .plusTok :: r => do
      let (b, r2) ← parseMul f r
      parseAddRest f (.addOp a b) r2
    | .minusTok :: r => do
      let (b, r2) ← parseMul f r
      parseAddRest f (.subOp a b) r2
    | _ => .ok (a, toks)

/-- Multiplicative level of the expression grammar. -/
def parseMul : Nat → List Tok → Except PyErr (Ast × List Tok)
  | 0, _ => .error .fuelExhausted
  | f+1, toks => do
    let (a, r) ← parseAtom f toks
    parseMulRest f a r

/-- Loop absorbing `*`/`/` at the multiplicative level. -/
def parseMulRest : Nat → Ast → List Tok → Except PyErr (Ast × List Tok)
  | 0, _, _ => .error .fuelExhausted
  | f+1, a, toks =>
    match toks with
    | .starTok :: r => do
      let (b, r2) ← parseAtom f r
      parseMulRest f (.mulOp a b) r2
    | .slashTok :: r => do
      let (b, r2) ← parseAtom f r
      parseMulRest f (.divOp a b) r2
    | _ => .ok (a, toks)

/-- Atoms: literals, names, calls and parenthesized expressions. -/
def parseAtom : Nat → List Tok → Except PyErr (Ast × List Tok)
  | 0, _ => .error .fuelExhausted
  | f+1, toks =>
    match toks with
    | .intTok n :: rest => .ok (.intLit (Int.ofNat n), rest)
    | .strTok s :: rest => .ok (.strLit s, rest)
    | .identTok s :: .lparenTok :: .rparenTok :: rest => .ok (.call s [], rest)
    | .identTok s :: .lparenTok :: rest => do
      let (args, r) ← parseArgs f rest
      match r with
      | .rparenTok :: r2 => .ok (.call s args, r2)
      | _ => .error .syntaxError
    | .identTok s :: rest => .ok (.name s, rest)
    | .lparenTok :: rest => do
      let (a, r) ← parseAdd f rest
      match r with
      | .rparenTok :: r2 => .ok (a, r2)
      | _ => .error .syntaxError
    | _ => .error .syntaxError

/-- Comma-separated argument list. -/
def parseArgs : Nat → List Tok → Except PyErr (List Ast × List Tok)
  | 0, _ => .error .fuelExhausted
  | f+1, toks => do
    let (a, r) ← parseAdd f toks
    match r with
    | .commaTok :: r2 => do
      let (rest, r3) ← parseArgs f r2
      .ok (a :: rest, r3)
    | _ => .ok ([a], r)

end

/-- Parse of a whole expression: one expression and then the end of the
token stream, anything left over being a syntax error. -/
def parseProgram (toks : List Tok) : Except PyErr Ast := do
  let (a, r) ← parseAdd (4 * toks.length + 8) toks
  match r with
  | [] => .ok a
  | _ => .error .syntaxError

/-- Integer view used by Python's arithmetic, where booleans coerce. -/
def toIntNum : Value → Option Int
  | .int n => some n
  | .bool b => some (if b then 1 else 0)
  | _ => Option.none

/-- Python `+` on evaluator values: string concatenation, integer addition
(booleans coercing), float addition otherwise, type error elsewhere. -/
def pyAdd (a b : Value) : Except PyErr Value :=
  match a, b with
  | .str x, .str y => .ok (.str (x ++ y))
  | _, _ =>
    match toIntNum a, toIntNum b with
    | some x, some y => .ok (.int (x + y))
    | _, _ =>
      match toRat a, toRat b with
      | some x, some y => .ok (.float (x + y))
      | _, _ => .error .typeError

/-- Python `-` on evaluator values. -/
def pySub (a b : Value) : Except PyErr Value :=
  match toIntNum a, toIntNum b with
  | some x, some y => .ok (.int (x - y))
  | _, _ =>
    match toRat a, toRat b with
    | some x, some y => .ok (.float (x - y))
    | _, _ => .error .typeError

/-- Python `*` on evaluator values (numeric cases only). -/
def pyMul (a b : Value) : Except PyErr Value :=
  match toIntNum a, toIntNum b with
  | some x, some y => .ok (.int (x * y))
  | _, _ =>
    match toRat a, toRat b with
    | some x, some y => .ok (.float (x * y))
    | _, _ => .error .typeError

/-- Python 3 `/`, true division: numeric operands produce a float and a
zero divisor raises `ZeroDivisionError`. -/
def pyDiv (a b : Value) : Except PyErr Value :=
  match toRat a, toRat b with
  | some x, some y => if y = 0 then .error .zeroDivision else .ok (.float (x / y))
  | _, _ => .error .typeError

/-- `len` from the function table. -/
def lenFn : List Value → Except PyErr Value
  | [.str s] => .ok (.int s.length)
  | [.dict es _] => .ok (.int es.length)
  | _ => .error .typeError

/-- Modelled from the spec: the `flow` system-call bridge into the host
runtime, a black box to this core. -/
def flowFn : List Value → Except PyErr Value
  | _ => .ok (.hostObj "flow")

/-- Modelled from the spec: the `action` system-call bridge into the host
runtime, a black box to this core. -/
def actionFn : List Value → Except PyErr Value
  | _ => .ok (.hostObj "action")

/-- `_create_regex`, compiling a pattern into a host regex object
(left abstract here; no claim exercises matching). -/
def create_regex (pattern : String) : Value := .hostObj ("re.compile " ++ pattern)

/-- Modelled from the spec: `search` performs a regex match; left abstract here,
no claim exercises it. -/
def searchFn : List Value → Except PyErr Value
  | _ => .ok (.hostObj "search")

/-- Modelled from the spec: `findall` extracts regex matches; left abstract here,
no claim exercises it. -/
def findallFn : List Value → Except PyErr Value
  | _ => .ok (.hostObj "findall")

/-- Modelled from the spec: `new_uid`, the host's fresh-identifier
generator (from `nemoguardrails/utils.py`, not among the sources). -/
def uidFn : List Value → Except PyErr Value
  | _ => .ok (.hostObj "uid")

/-- `_to_str`. -/
def to_str (data : Value) : String := pyStr data

/-- `_escape_string`: escape backslashes and brace escapes so a string can
be re-interpolated safely. -/
def escape_string (s : String) : String :=
  String.mk (replacePair rbraceC rbraceC [bslashC, rbraceC]
    (replacePair lbraceC lbraceC [bslashC, lbraceC]
      (replaceChar bslashC [bslashC, bslashC] s.data)))

/-- Wrapper over a one-argument Python function for the table. -/
def unary (g : Value → Except PyErr Value) : List Value → Except PyErr Value
  | [v] => g v
  | _ => .error .typeError

/-- The fixed function library handed to the sandboxed evaluator: exactly
the 18 names bound in `eval_expression`, and nothing else. -/
def pyFunctions : String → Option (List Value → Except PyErr Value)
  | "len" => some lenFn
  | "flow" => some flowFn
  | "action" => some actionFn
  | "regex" => some (unary (fun v => .ok (create_regex (pyStr v))))
  | "search" => some searchFn
  | "findall" => some findallFn
  | "uid" => some uidFn
  | "str" => some (unary (fun v => .ok (.str (to_str v))))
  | "escape" => some (unary (fun v =>
      match v with
      | .str s => .ok (.str (escape_string s))
      | _ => .error .typeError))
  | "isint" => some (unary (fun v => .ok (.bool (is_int v))))
  | "isfloat" => some (unary (fun v => .ok (.bool (is_float v))))
  | "isbool" => some (unary (fun v => .ok (.bool (is_bool v))))
  | "isstr" => some (unary (fun v => .ok (.bool (is_str v))))
  | "LESS_THAN" => some (unary less_than_operator)
  | "EQUAL_LESS_THAN" => some (unary equal_or_less_than_operator)
  | "GREATER_THAN" => some (unary greater_than_operator)
  | "EQUAL_GREATER_THAN" => some (unary equal_or_greater_than_operator)
  | "NOT_EQUAL_TO" => some (unary not_equal_to_operator)
  | _ => Option.none

mutual

/-- Evaluation of the sandboxed abstract syntax against the binding set:
names resolve in the binding set only, calls resolve in the function table
only (looked up before the arguments are evaluated, as `simpleeval` does),
and any unresolvable name or unsupported operation is an error. -/
def evalAst (env : Env) : Ast → Except PyErr Value
  | .intLit n => .ok (.int n)
  | .strLit s => .ok (.str (String.mk s))
  | .name s =>
    match env.lookup s with
    | some v => .ok v
    | Option.none => .error (.nameNotDefined s)
  | .addOp a b => do pyAdd (← evalAst env a) (← evalAst env b)
  | .subOp a b => do pySub (← evalAst env a) (← evalAst env b)
  | .mulOp a b => do pyMul (← evalAst env a) (← evalAst env b)
  | .divOp a b => do pyDiv (← evalAst env a) (← evalAst env b)
  | .call f args =>
    match pyFunctions f with
    | Option.none => .error (.functionNotDefined f)
    | some fn => do fn (← evalArgs env args)

/-- Left-to-right evaluation of call arguments. -/
def evalArgs (env : Env) : List Ast → Except PyErr (List Value)
  | [] => .ok []
  | a :: rest => do .ok ((← evalAst env a) :: (← evalArgs env rest))

end

/-- The full sandboxed evaluation of a rewritten expression text:
tokenize, parse, evaluate. -/
def sandboxEval (chars : List Char) (env : Env) : Except PyErr Value := do
  let toks ← tokenize chars
  let ast ← parseProgram toks
  evalAst env ast

/-- Message of the `ColangValueError` wrapping a failed final
evaluation; `expr` is the preprocessed expression text (the variable
rewriting in the source goes to `updated_expr`, leaving `expr` with its
sigils). -/
def evalErrMsg (expr : List Char) : String :=
  "Error evaluating \x27" ++ String.mk expr ++ "\x27"

/-- The string branch of `eval_expression`: interpolation preprocessing,
variable discovery and rewriting, binding-set construction, sandboxed
evaluation with every evaluator error wrapped into a `ColangValueError`
carrying the (preprocessed) expression text. -/
def evalStringExpr (evalInner : List Char → Except PyErr Value) (chars : List Char)
    (ctx : Context) : Except PyErr Value := do
  let processed ← processStrings evalInner chars
  let locals := buildLocals (findVars processed) ctx
  match sandboxEval (substVars processed) locals with
  | .ok v => .ok v
  | .error _ => .error (.colangValue (evalErrMsg processed))

/-- `eval_expression`, fuel-indexed: `None` evaluates to `None`; any other
non-string input must satisfy `assert isinstance(expr, bool) or
isinstance(expr, int)` and is returned unchanged when it does; a string
goes through the three-stage pipeline, nested interpolation recursing with
one unit of fuel less. -/
def evalExprFuel : Nat → Value → Context → Except PyErr Value
  | _, .none, _ => .ok .none
  | _, .bool b, _ => .ok (.bool b)
  | _, .int n, _ => .ok (.int n)
  | 0, .str _, _ => .error .fuelExhausted
  | fuel+1, .str s, ctx =>
    evalStringExpr (fun inner => evalExprFuel fuel (.str (String.mk inner)) ctx) s.data ctx
  | _, _, _ => .error .assertionError

/-- Fuel sufficient for `eval_expression`: nested interpolation always
recurses on a strictly shorter text. -/
def exprFuel : Value → Nat
  | .str s => s.length + 1
  | _ => 1

/-- The `eval_expression` entry point. -/
def eval_expression (expr : Value) (context : Context) : Except PyErr Value :=
  evalExprFuel (exprFuel expr) expr context

/-! Helper lemmas about the binding-set construction. -/

theorem buildLocalsGo_keys_nodup (ctx : Context) (names : List String) :
    ∀ acc : Env, (acc.map Prod.fst).Nodup →
      ((buildLocalsGo ctx names acc).map Prod.fst).Nodup := by
  induction names with
  | nil => intro acc h; simpa [buildLocalsGo] using h
  | cons n rest ih =>
    intro acc h
    by_cases hc : acc.any (fun p => p.1 == "var_" ++ n)
    · simpa [buildLocalsGo, hc] using ih acc h
    · have hnotin : ("var_" ++ n) ∉ acc.map Prod.fst := by
        intro hmem
        obtain ⟨p, hp, hp2⟩ := List.mem_map.mp hmem
        exact hc (List.any_eq_true.mpr ⟨p, hp, by simp [hp2]⟩)
      have h2 : ((acc ++ [("var_" ++ n, wrapAttr (ctxGet ctx n))]).map Prod.fst).Nodup := by
        rw [List.map_append]
        refine List.Nodup.append h (List.nodup_singleton _) ?_
        intro a ha hk
        rw [List.map_cons, List.map_nil, List.mem_singleton] at hk
        subst hk
        exact hnotin ha
      simpa [buildLocalsGo, hc] using ih _ h2

theorem buildLocalsGo_keys_mem (ctx : Context) (names : List String) :
    ∀ (acc : Env) (k : String),
      (k ∈ (buildLocalsGo ctx names acc).map Prod.fst ↔
        k ∈ acc.map Prod.fst ∨ ∃ n ∈ names, k = "var_" ++ n) := by
  induction names with
  | nil => intro acc k; simp [buildLocalsGo]
  | cons n rest ih =>
    intro acc k
    by_cases hc : acc.any (fun p => p.1 == "var_" ++ n)
    · have hin : ("var_" ++ n) ∈ acc.map Prod.fst := by
        obtain ⟨p, hp, hp2⟩ := List.any_eq_true.mp hc
        exact List.mem_map.mpr ⟨p, hp, by simpa using hp2⟩
      rw [buildLocalsGo, if_pos hc, ih acc k]
      constructor
      · rintro (h | ⟨m, hm, rfl⟩)
        · exact Or.inl h
        · exact Or.inr ⟨m, List.mem_cons_of_mem _ hm, rfl⟩
      · rintro (h | ⟨m, hm, rfl⟩)
        · exact Or.inl h
        · rcases List.mem_cons.mp hm with rfl | hm'
          · exact Or.inl hin
          · exact Or.inr ⟨m, hm', rfl⟩
    · rw [buildLocalsGo, if_neg hc, ih _ k]
      simp only [List.map_append, List.mem_append, List.map_cons, List.map_nil,
        List.mem_singleton, List.mem_cons]
      constructor
      · rintro ((h | h) | ⟨m, hm, rfl⟩)
        · exact Or.inl h
        · exact Or.inr ⟨n, Or.inl rfl, by simpa using h⟩
        · exact Or.inr ⟨m, Or.inr hm, rfl⟩
      · rintro (h | ⟨m, rfl | hm, rfl⟩)
        · exact Or.inl (Or.inl h)
        · exact Or.inl (Or.inr (Or.inl rfl))
        · exact Or.inr ⟨m, hm, rfl⟩

theorem var_prefix_inj (a b : String) (h : "var_" ++ a = "var_" ++ b) : a = b := by
  have hd : ("var_" ++ a).data = ("var_" ++ b).data := congrArg String.data h
  rw [String.data_append, String.data_append] at hd
  exact String.ext (List.append_cancel_left hd)

/-! Helper lemmas about the literal-span and interpolation-site scanners,
used to characterize the preprocessing of a literal `"{t}"` with an
arbitrary inner text `t`. -/

theorem scanStr_at_close (q : Char) (r0 : List Char) : scanStr q (q :: r0) = some ([], r0) := by
  cases r0 <;> simp [scanStr]

theorem scanStr_append (q : Char) (u r0 : List Char) (hq : q ∉ u)
    (hl : u.getLast? ≠ some bslashC) : scanStr q (u ++ q :: r0) = some (u, r0) := by
  induction u with
  | nil => simpa using scanStr_at_close q r0
  | cons a u' ih =>
    have ha : a ≠ q := fun h => hq (h ▸ List.mem_cons_self a u')
    cases u' with
    | nil =>
      have hab : a ≠ bslashC := by
        intro h
        exact hl (by simp [h])
      simp only [List.nil_append, List.cons_append]
      rw [scanStr]
      rw [if_neg ha, if_neg (by exact fun h => hab h.1)]
      rw [scanStr_at_close q r0]
    | cons b u'' =>
      have hb : b ≠ q := fun h => hq (h ▸ List.mem_cons_of_mem a (List.mem_cons_self b u''))
      have hq' : q ∉ b :: u'' := fun h => hq (List.mem_cons_of_mem a h)
      have hl' : (b :: u'').getLast? ≠ some bslashC := by
        intro h
        exact hl (by rw [List.getLast?_cons_cons]; exact h)
      simp only [List.cons_append]
      rw [scanStr]
      rw [if_neg ha, if_neg (by exact fun h => hb h.2)]
      have := ih hq' hl'
      simp only [List.cons_append] at this
      rw [this]

theorem takeWhile_all_append (p : Char → Bool) (u rest : List Char) (h : ∀ c ∈ u, p c = true) :
    (u ++ rest).takeWhile p = u ++ rest.takeWhile p := by
  induction u with
  | nil => simp
  | cons a u' ih =>
    simp only [List.cons_append, List.takeWhile_cons]
    rw [h a (List.mem_cons_self a u')]
    simp [ih (fun c hc => h c (List.mem_cons_of_mem a hc))]

theorem dropWhile_all_append (p : Char → Bool) (u rest : List Char) (h : ∀ c ∈ u, p c = true) :
    (u ++ rest).dropWhile p = rest.dropWhile p := by
  induction u with
  | nil => simp
  | cons a u' ih =>
    simp only [List.cons_append, List.dropWhile_cons]
    rw [h a (List.mem_cons_self a u')]
    simp [ih (fun c hc => h c (List.mem_cons_of_mem a hc))]

theorem tryReadSite_not_lbrace (c : Char) (l : List Char) (h : c ≠ lbraceC) :
    tryReadSite (c :: l) = Option.none := by
  cases l with
  | nil => rfl
  | cons c1 rest => simp [tryReadSite, h]

theorem tryReadSite_wrapped (t : List Char) (hne : t ≠ []) (hob : lbraceC ∉ t)
    (hcb : rbraceC ∉ t) :
    tryReadSite (lbraceC :: (t ++ [rbraceC, dquoteC])) = some (t, [dquoteC]) := by
  have hsite : ∀ c ∈ t, siteChar c = true := by
    intro c hc
    have h1 : c ≠ lbraceC := fun h => hob (h ▸ hc)
    have h2 : c ≠ rbraceC := fun h => hcb (h ▸ hc)
    simp [siteChar, h1, h2]
  obtain ⟨c1, t', rfl⟩ : ∃ c1 t', t = c1 :: t' := by
    cases t with
    | nil => exact absurd rfl hne
    | cons c1 t' => exact ⟨c1, t', rfl⟩
  have hc1 : c1 ≠ lbraceC := fun h => hob (h ▸ List.mem_cons_self c1 t')
  have htake : ((c1 :: t') ++ [rbraceC, dquoteC]).takeWhile siteChar = c1 :: t' := by
    rw [takeWhile_all_append siteChar (c1 :: t') [rbraceC, dquoteC] hsite]
    simp [List.takeWhile_cons, siteChar]
  have hdrop : ((c1 :: t') ++ [rbraceC, dquoteC]).dropWhile siteChar = [rbraceC, dquoteC] := by
    rw [dropWhile_all_append siteChar (c1 :: t') [rbraceC, dquoteC] hsite]
    simp [List.dropWhile_cons, siteChar]
  simp only [List.cons_append] at htake hdrop ⊢
  rw [tryReadSite]
  simp only [htake, hdrop]
  rw [if_pos ⟨trivial, hc1⟩, if_pos ⟨trivial, by simp⟩, if_neg (by decide)]

theorem findSitesGo_nil (f : Nat) : findSitesGo f [] = [] := by
  cases f <;> rfl

theorem findSitesGo_wrapped (f : Nat) (t : List Char) (hne : t ≠ []) (hob : lbraceC ∉ t)
    (hcb : rbraceC ∉ t) :
    findSitesGo (f + 3) (dquoteC :: lbraceC :: (t ++ [rbraceC, dquoteC])) = [t] := by
  have step1 : findSitesGo (f + 3) (dquoteC :: lbraceC :: (t ++ [rbraceC, dquoteC])) =
      findSitesGo (f + 2) (lbraceC :: (t ++ [rbraceC, dquoteC])) := by
    rw [show f + 3 = (f + 2) + 1 from rfl, findSitesGo,
      tryReadSite_not_lbrace dquoteC _ (by decide)]
  have step2 : findSitesGo (f + 2) (lbraceC :: (t ++ [rbraceC, dquoteC])) =
      t :: findSitesGo (f + 1) [dquoteC] := by
    rw [show f + 2 = (f + 1) + 1 from rfl, findSitesGo, tryReadSite_wrapped t hne hob hcb]
  have step3 : findSitesGo (f + 1) [dquoteC] = [] := by
    rw [findSitesGo, tryReadSite_not_lbrace dquoteC _ (by decide), findSitesGo_nil]
  rw [step1, step2, step3]

theorem findSites_wrapped (t : List Char) (hne : t ≠ []) (hob : lbraceC ∉ t)
    (hcb : rbraceC ∉ t) :
    findSites (dquoteC :: lbraceC :: (t ++ [rbraceC, dquoteC])) = [t] := by
  unfold findSites
  rw [show (dquoteC :: lbraceC :: (t ++ [rbraceC, dquoteC])).length + 1 = (t.length + 2) + 3 by
    simp]
  exact findSitesGo_wrapped (t.length + 2) t hne hob hcb

theorem processOneLiteral_wrapped (ev : List Char → Except PyErr Value) (t : List Char)
    (hne : t ≠ []) (hob : lbraceC ∉ t) (hcb : rbraceC ∉ t) (e : PyErr)
    (hfail : ev t = .error e) :
    processOneLiteral ev (dquoteC :: lbraceC :: (t ++ [rbraceC, dquoteC])) =
      .error (.colangValue (innerErrMsg t)) := by
  unfold processOneLiteral
  rw [findSites_wrapped t hne hob hcb]
  simp only [List.isEmpty_cons, Bool.false_eq_true, if_false, List.mapM, List.mapM.loop, hfail]
  rfl

theorem processStrings_wrapped (ev : List Char → Except PyErr Value) (t : List Char)
    (hne : t ≠ []) (hq : dquoteC ∉ t) (hob : lbraceC ∉ t) (hcb : rbraceC ∉ t) (e : PyErr)
    (hfail : ev t = .error e) :
    processStrings ev (dquoteC :: lbraceC :: (t ++ [rbraceC, dquoteC])) =
      .error (.colangValue (innerErrMsg t)) := by
  have hscan : scanStr dquoteC (lbraceC :: (t ++ [rbraceC, dquoteC])) =
      some (lbraceC :: (t ++ [rbraceC]), []) := by
    rw [show lbraceC :: (t ++ [rbraceC, dquoteC]) =
      (lbraceC :: (t ++ [rbraceC])) ++ dquoteC :: [] by simp]
    refine scanStr_append dquoteC _ [] ?_ ?_
    · intro hmem
      rcases List.mem_cons.mp hmem with h | h
      · exact absurd h (by decide)
      · rcases List.mem_append.mp h with h2 | h2
        · exact hq h2
        · rw [List.mem_singleton] at h2
          exact absurd h2 (by decide)
    · rw [show lbraceC :: (t ++ [rbraceC]) = (lbraceC :: t) ++ [rbraceC] by simp,
        List.getLast?_concat]
      decide
  unfold processStrings
  rw [processStringsGo, if_pos (Or.inl rfl), hscan]
  have hspan : (dquoteC :: (lbraceC :: (t ++ [rbraceC]))) ++ [dquoteC] =
      dquoteC :: lbraceC :: (t ++ [rbraceC, dquoteC]) := by simp
  simp only [List.cons_append, List.append_assoc, List.singleton_append] at hspan ⊢
  rw [hspan, processOneLiteral_wrapped ev t hne hob hcb e hfail]
  rfl

/-! The claims. -/

/-- C1 (amended): the `compare` type check is Python's `isinstance` against
the reference value's concrete type, not a strict concrete-type equality:
with an integer reference, a float argument is a type-mismatch failure and
an integer argument returns the stored operator applied to it, but a
boolean argument is accepted (`bool` being an `int` subclass) and compared
numerically instead of failing. -/
theorem c1_compare_typecheck (n m : Int) (q : Rat) (b : Bool) :
    less_than_operator (.int n) = .ok (.comp .lt (.int n)) ∧
    (Value.comp .lt (.int n)).compare (.float q) = .error (.colangValue compareErrMsg) ∧
    (Value.comp .lt (.int n)).compare (.int m) = .ok (decide ((m : Rat) < (n : Rat))) ∧
    (Value.comp .lt (.int n)).compare (.bool b) =
      .ok (decide ((if b then (1 : Rat) else 0) < (n : Rat))) :=
  ⟨rfl, rfl, rfl, rfl⟩

/-- C1 counterexample: `LESS_THAN(5).compare(True)` succeeds and returns
`True`; a boolean argument against an integer reference is not the
type-mismatch failure the claim requires. -/
theorem c1_counterexample :
    less_than_operator (.int 5) = .ok (.comp .lt (.int 5)) ∧
    (Value.comp .lt (.int 5)).compare (.bool true) = .ok true :=
  ⟨rfl, rfl⟩

/-- C2 (amended): `None`, booleans and integers are returned unchanged,
but any other non-string input — floats included — fails the internal
`assert isinstance(expr, bool) or isinstance(expr, int)`. -/
theorem c2_nonstring_inputs (ctx : Context) :
    eval_expression .none ctx = .ok .none ∧
    (∀ b : Bool, eval_expression (.bool b) ctx = .ok (.bool b)) ∧
    (∀ n : Int, eval_expression (.int n) ctx = .ok (.int n)) ∧
    (∀ q : Rat, eval_expression (.float q) ctx = .error .assertionError) :=
  ⟨rfl, fun _ => rfl, fun _ => rfl, fun _ => rfl⟩

/-- C2 counterexample: a float input raises an `AssertionError` instead of
being returned unchanged. -/
theorem c2_counterexample :
    eval_expression (.float 1) [] = .error .assertionError ∧
    eval_expression (.float 1) [] ≠ .ok (.float 1) := by
  refine ⟨rfl, ?_⟩
  intro h
  rw [show eval_expression (.float 1) [] = .error .assertionError from rfl] at h
  exact Except.noConfusion h

/-- C3 (amended): on `"x {"{1+1}"} y"` the literal regex matches the spans
`"x {"` and `"} y"`, neither containing a complete interpolation site, so
no interpolation happens and the final sandboxed evaluation fails on the
unparsable text, reported as a wrapped evaluation failure (sites with
nested quoted literals are not supported). -/
theorem c3_nested_literal_fails :
    eval_expression (.str ("\"x \x7b\"\x7b1+1\x7d\"\x7d y\"")) [] =
      .error (.colangValue ("Error evaluating \x27\"x \x7b\"\x7b1+1\x7d\"\x7d y\"\x27")) := rfl

/-- C3 counterexample: the nested-interpolation example does not produce
`"x 2 y"`. -/
theorem c3_counterexample :
    eval_expression (.str ("\"x \x7b\"\x7b1+1\x7d\"\x7d y\"")) [] ≠ .ok (.str ("x 2 y")) := by
  intro h
  rw [show eval_expression (.str ("\"x \x7b\"\x7b1+1\x7d\"\x7d y\"")) [] =
      .error (.colangValue ("Error evaluating \x27\"x \x7b\"\x7b1+1\x7d\"\x7d y\"\x27"))
    from rfl] at h
  exact Except.noConfusion h

/-- C4 (amended): doubled braces are collapsed only in a literal that also
contains at least one recognized interpolation site; `"{{literal}}"` alone
evaluates to the text `{{literal}}` unchanged — still with no evaluation
attempted on `literal` — while `"{{a}} {1+1}"` shows the collapse once a
site is present. -/
theorem c4_brace_escape (ctx : Context) :
    eval_expression (.str ("\"\x7b\x7bliteral\x7d\x7d\"")) ctx =
      .ok (.str ("\x7b\x7bliteral\x7d\x7d")) ∧
    eval_expression (.str ("\"\x7b\x7ba\x7d\x7d \x7b1+1\x7d\"")) [] = .ok (.str ("\x7ba\x7d 2")) :=
  ⟨rfl, rfl⟩

/-- C4 counterexample: `"{{literal}}"` does not evaluate to `{literal}`. -/
theorem c4_counterexample :
    eval_expression (.str ("\"\x7b\x7bliteral\x7d\x7d\"")) [] =
      .ok (.str ("\x7b\x7bliteral\x7d\x7d")) ∧
    eval_expression (.str ("\"\x7b\x7bliteral\x7d\x7d\"")) [] ≠ .ok (.str ("\x7bliteral\x7d")) := by
  refine ⟨rfl, ?_⟩
  intro h
  rw [show eval_expression (.str ("\"\x7b\x7bliteral\x7d\x7d\"")) [] =
      .ok (.str ("\x7b\x7bliteral\x7d\x7d")) from rfl] at h
  injection h with h1
  injection h1 with h2
  exact absurd h2 (by decide)

/-- C5: each of the five comparison-operator constructors fails at
construction time, with the construction `ColangValueError`, on every
reference value failing `isinstance(value, (int, float))` — in particular
on every string — and succeeds, before any `compare` call, on every
reference value passing that check. -/
theorem c5_construction_check :
    (∀ v : Value, pyIsIntOrFloat v = false →
      less_than_operator v = .error (.colangValue (compInitErrMsg v)) ∧
      equal_or_less_than_operator v = .error (.colangValue (compInitErrMsg v)) ∧
      greater_than_operator v = .error (.colangValue (compInitErrMsg v)) ∧
      equal_or_greater_than_operator v = .error (.colangValue (compInitErrMsg v)) ∧
      not_equal_to_operator v = .error (.colangValue (compInitErrMsg v))) ∧
    (∀ v : Value, pyIsIntOrFloat v = true →
      less_than_operator v = .ok (.comp .lt v) ∧
      equal_or_less_than_operator v = .ok (.comp .le v) ∧
      greater_than_operator v = .ok (.comp .gt v) ∧
      equal_or_greater_than_operator v = .ok (.comp .ge v) ∧
      not_equal_to_operator v = .ok (.comp .ne v)) ∧
    (∀ s : String, pyIsIntOrFloat (.str s) = false) := by
  refine ⟨?_, ?_, fun s => rfl⟩
  · intro v h
    unfold less_than_operator equal_or_less_than_operator greater_than_operator
      equal_or_greater_than_operator not_equal_to_operator comparisonExpressionInit
    rw [h]
    simp
  · intro v h
    unfold less_than_operator equal_or_less_than_operator greater_than_operator
      equal_or_greater_than_operator not_equal_to_operator comparisonExpressionInit
    rw [h]
    simp

/-- C5 witness: a string reference fails construction, an integer
reference succeeds. -/
theorem c5_witness :
    pyIsIntOrFloat (.str ("a")) = false ∧
    less_than_operator (.str ("a")) = .error (.colangValue (compInitErrMsg (.str ("a")))) ∧
    pyIsIntOrFloat (.int 5) = true ∧
    less_than_operator (.int 5) = .ok (.comp .lt (.int 5)) :=
  ⟨rfl, (c5_construction_check.1 (.str ("a")) rfl).1, rfl,
    (c5_construction_check.2.1 (.int 5) rfl).1⟩

/-- C6: the binding set binds each distinct referenced identifier exactly
once (its keys are the `var_`-prefixed referenced identifiers, without
duplicates, so the context is consulted once per distinct identifier), an
absent identifier resolves to `None` instead of raising, and `$x + $x`
with `x = 3` evaluates to `6`. -/
theorem c6_variable_resolution :
    (∀ (names : List String) (ctx : Context),
      ((buildLocals names ctx).map Prod.fst).Nodup ∧
      ∀ n : String, ("var_" ++ n) ∈ (buildLocals names ctx).map Prod.fst ↔ n ∈ names) ∧
    eval_expression (.str ("$missing")) [] = .ok .none ∧
    eval_expression (.str ("$x + $x")) [("x", .int 3)] = .ok (.int 6) := by
  refine ⟨?_, rfl, rfl⟩
  intro names ctx
  constructor
  · exact buildLocalsGo_keys_nodup ctx names [] (by simp)
  · intro n
    unfold buildLocals
    rw [buildLocalsGo_keys_mem ctx names [] ("var_" ++ n)]
    constructor
    · rintro (h | ⟨m, hm, he⟩)
      · simp at h
      · exact (var_prefix_inj n m he) ▸ hm
    · intro hn
      exact Or.inr ⟨n, hn, rfl⟩

/-- C7: a failure while recursively evaluating the text of an
interpolation site inside a string literal is re-raised as a
`ColangValueError` identifying the inner text, with no partial result:
for every inner text `t` (nonempty, without quotes or braces) whose
recursive evaluation fails, evaluating the literal `"{t}"` yields exactly
the wrapped inner-expression error. -/
theorem c7_inner_failure_wrapped (f : Nat) (t : List Char) (ctx : Context) (e : PyErr)
    (hne : t ≠ []) (hq : dquoteC ∉ t) (hob : lbraceC ∉ t) (hcb : rbraceC ∉ t)
    (hfail : evalExprFuel f (.str (String.mk t)) ctx = .error e) :
    evalExprFuel (f + 1)
        (.str (String.mk (dquoteC :: lbraceC :: (t ++ [rbraceC, dquoteC])))) ctx =
      .error (.colangValue (innerErrMsg t)) := by
  rw [evalExprFuel]
  unfold evalStringExpr
  rw [show (String.mk (dquoteC :: lbraceC :: (t ++ [rbraceC, dquoteC]))).data =
    dquoteC :: lbraceC :: (t ++ [rbraceC, dquoteC]) from rfl]
  rw [processStrings_wrapped _ t hne hq hob hcb e hfail]
  rfl

/-- C7 witness: the inner text `1/0` fails (division by zero) and the
literal `"{1/0}"` re-raises the failure naming `1/0`. -/
theorem c7_witness :
    ((['1', '/', '0'] : List Char) ≠ [] ∧ dquoteC ∉ (['1', '/', '0'] : List Char) ∧
      lbraceC ∉ (['1', '/', '0'] : List Char) ∧ rbraceC ∉ (['1', '/', '0'] : List Char) ∧
      evalExprFuel 1 (.str (String.mk ['1', '/', '0'])) [] =
        .error (.colangValue ("Error evaluating \x271/0\x27"))) ∧
    evalExprFuel 2
        (.str (String.mk (dquoteC :: lbraceC :: (['1', '/', '0'] ++ [rbraceC, dquoteC])))) [] =
      .error (.colangValue (innerErrMsg ['1', '/', '0'])) :=
  ⟨⟨by decide, by decide, by decide, by decide, rfl⟩,
    c7_inner_failure_wrapped 1 ['1', '/', '0'] []
      (.colangValue ("Error evaluating \x271/0\x27"))
      (by decide) (by decide) (by decide) (by decide) rfl⟩

/-- C8: a call whose function name is outside the fixed library is a
`FunctionNotDefined` failure (there is no binding to invoke, so the named
host function cannot run), and end to end an unknown call, a division by
zero and an unresolvable name are each reported as a `ColangValueError`
wrapping the expression text, for every context. -/
theorem c8_sandbox_failures :
    (∀ (f : String) (env : Env) (args : List Ast), pyFunctions f = Option.none →
      evalAst env (.call f args) = .error (.functionNotDefined f)) ∧
    (∀ ctx : Context, eval_expression (.str ("open(1)")) ctx =
      .error (.colangValue ("Error evaluating \x27open(1)\x27"))) ∧
    (∀ ctx : Context, eval_expression (.str ("1/0")) ctx =
      .error (.colangValue ("Error evaluating \x271/0\x27"))) ∧
    (∀ ctx : Context, eval_expression (.str ("no_such_name")) ctx =
      .error (.colangValue ("Error evaluating \x27no_such_name\x27"))) := by
  refine ⟨?_, fun _ => rfl, fun _ => rfl, fun _ => rfl⟩
  intro f env args h
  rw [evalAst, h]

/-- C8 witness: `open` is not in the function table and calling it is a
`FunctionNotDefined` failure. -/
theorem c8_witness :
    pyFunctions ("open") = Option.none ∧
    evalAst [] (.call ("open") []) = .error (.functionNotDefined ("open")) :=
  ⟨rfl, c8_sandbox_failures.1 ("open") [] [] rfl⟩

/-- C9: the literal `"a {1+1} b"` evaluated against the empty context
interpolates its site to `2` and yields the string `a 2 b`. -/
theorem c9_roundtrip :
    eval_expression (.str ("\"a \x7b1+1\x7d b\"")) [] = .ok (.str ("a 2 b")) := rfl

/-- C10: every comparison-operator constructor accepts a boolean reference
value (booleans pass the `isinstance(value, (int, float))` construction
check), and `isint` is true on booleans while `isbool` also is, so the two
predicates are not mutually exclusive. -/
theorem c10_bool_reference (b : Bool) :
    less_than_operator (.bool b) = .ok (.comp .lt (.bool b)) ∧
    equal_or_less_than_operator (.bool b) = .ok (.comp .le (.bool b)) ∧
    greater_than_operator (.bool b) = .ok (.comp .gt (.bool b)) ∧
    equal_or_greater_than_operator (.bool b) = .ok (.comp .ge (.bool b)) ∧
    not_equal_to_operator (.bool b) = .ok (.comp .ne (.bool b)) ∧
    is_int (.bool b) = true ∧
    is_bool (.bool b) = true :=
  ⟨rfl, rfl, rfl, rfl, rfl, rfl, rfl⟩

end NGEval
